import Mathlib

/-!
Verification of the knowledge-base transformation and lookup layer of the
Surgical Complication AI assistant.  The Python sources are shallowly
embedded: JSON dictionaries become structures with `Option` fields where a
key may be absent, Python string operations (`lower`, `in`, `strip`) become
executable functions over `List Char`, file access becomes an explicit
association list from paths to contents, and exceptions become `Except`.
-/

/-- Model of the Python substring prefix test used by `needle in haystack`. -/
def leadMatch : List Char → List Char → Bool
  | [], _ => true
  | _ :: _, [] => false
  | a :: as, b :: bs => a == b && leadMatch as bs

/-- Model of Python `needle in haystack` (contiguous substring test). -/
def subMatch (n : List Char) : List Char → Bool
  | [] => n.isEmpty
  | c :: t => leadMatch n (c :: t) || subMatch n t

/-- Python `needle in haystack` on strings. -/
def strIn (needle haystack : String) : Bool :=
  subMatch needle.data haystack.data

/-- Model of Python `str.lower()` (ASCII case folding via `Char.toLower`). -/
def strLower (s : String) : String :=
  ⟨s.data.map Char.toLower⟩

/-- `true` when the string contains no ASCII hyphen character. -/
def noDash (s : String) : Bool :=
  s.data.all (fun ch => ch != '-')

/-- A complication record of the JSON knowledge base.  The four clinical
fields may be absent in the JSON, which Python reads with
`complication.get(field, "N/A")`; absence is modelled by `none`. -/
structure Complication where
  name : String
  etiology : Option String
  risk_factors : Option String
  diagnostic_criteria : Option String
  protocol : Option String
  references : List String
deriving DecidableEq

/-- A surgery record of the JSON knowledge base. -/
structure Surgery where
  surgery_name : String
  category : Option String
  complications : List Complication
deriving DecidableEq

/-- The root of the JSON knowledge base. -/
structure KnowledgeBase where
  surgeries : List Surgery
deriving DecidableEq

/-- The metadata dictionary attached to each LangChain `Document` by
`prepare_documents` in `src/data_loader.py`. -/
structure DocMetadata where
  surgery : String
  complication : String
  category : Option String
  etiology : String
  risk_factors : String
  diagnostic_criteria : String
  protocol : String
  source : String
deriving DecidableEq

/-- A LangChain `Document` as built by `prepare_documents`. -/
structure Document where
  page_content : String
  metadata : DocMetadata
deriving DecidableEq

/-- The document built for one complication of one surgery, following the
body of the inner loop of `prepare_documents` in `src/data_loader.py`.
The five concatenated pieces mirror the five adjacent f-strings of the
Python source. -/
def mkDoc (surgery_name : String) (category : Option String) (c : Complication) : Document :=
  let etiology := c.etiology.getD "N/A"
  let risk_factors := c.risk_factors.getD "N/A"
  let diagnostic_criteria := c.diagnostic_criteria.getD "N/A"
  let protocol := c.protocol.getD "N/A"
  let content :=
    ("Surgical Complication: " ++ c.name ++ " during/after " ++ surgery_name ++ ". ") ++
    (("Clinical Context (Etiology): " ++ etiology ++ ". ") ++
    (("Key Risk Factors: " ++ risk_factors ++ ". ") ++
    (("Diagnostic Criteria (Signs/Labs/Imaging): " ++ diagnostic_criteria ++ ". ") ++
    ("Management Protocol: " ++ protocol))))
  { page_content := content
    metadata :=
      { surgery := surgery_name
        complication := c.name
        category := category
        etiology := etiology
        risk_factors := risk_factors
        diagnostic_criteria := diagnostic_criteria
        protocol := protocol
        source := surgery_name ++ " - " ++ c.name } }

/-- The documents contributed by one surgery (inner loop of
`prepare_documents`). -/
def prepareForSurgery (s : Surgery) : List Document :=
  s.complications.map (mkDoc s.surgery_name s.category)

/-- The outer loop of `prepare_documents`, accumulating documents surgery
by surgery. -/
def prepareDocsAux : List Surgery → List Document
  | [] => []
  | s :: rest => prepareForSurgery s ++ prepareDocsAux rest

/-- `prepare_documents` from `src/data_loader.py`. -/
def prepare_documents (kb : KnowledgeBase) : List Document :=
  prepareDocsAux kb.surgeries

/-- The (surgery name, complication name) pair identifying a document. -/
def docPair (d : Document) : String × String :=
  (d.metadata.surgery, d.metadata.complication)

/-- The (surgery, complication) name pairs of a knowledge base in
traversal order, as described by the spec for the Document Preparer. -/
def traversalPairs (kb : KnowledgeBase) : List (String × String) :=
  kb.surgeries.flatMap (fun s => s.complications.map (fun c => (s.surgery_name, c.name)))

/-- Total number of complications across all surgeries. -/
def totalComplications (kb : KnowledgeBase) : Nat :=
  (kb.surgeries.map (fun s => s.complications.length)).sum

/-- The `source` metadata string attached to a (surgery, complication)
name pair. -/
def sourceLabel (p : String × String) : String :=
  p.1 ++ " - " ++ p.2

/-- The `source` metadata values of all prepared documents, in order. -/
def sourcesOf (kb : KnowledgeBase) : List String :=
  (prepare_documents kb).map (fun d => d.metadata.source)

/-- Result of `search_knowledge_base`: either a `(surgery_name,
complication_name, surgery)` triple, the Python `(None, None, None)`
triple, or an uncaught `IndexError` from `surgery["complications"][0]`. -/
inductive SearchResult where
  | found (surgery_name comp_name : String) (surgery : Surgery)
  | noneTriple
  | indexError
deriving DecidableEq

/-- The surgery-name test of `search_knowledge_base`:
`search_term in surgery_name.lower()`. -/
def nameMatches (term : String) (s : Surgery) : Bool :=
  strIn term (strLower s.surgery_name)

/-- The complication-name test of `search_knowledge_base`:
`search_term in comp_name.lower()`. -/
def compMatches (term : String) (c : Complication) : Bool :=
  strIn term (strLower c.name)

/-- The inner complication loop of `search_knowledge_base`: first
complication of the list whose name contains the search term. -/
def findComp (term : String) : List Complication → Option Complication
  | [] => none
  | c :: rest => if compMatches term c then some c else findComp term rest

/-- The outer surgery loop of `search_knowledge_base`.  A surgery-name
match takes `surgery["complications"][0]`, which raises `IndexError` on an
empty list. -/
def searchAux (term : String) : List Surgery → SearchResult
  | [] => SearchResult.noneTriple
  | s :: rest =>
    if nameMatches term s then
      match s.complications with
      | [] => SearchResult.indexError
      | c :: _ => SearchResult.found s.surgery_name c.name s
    else
      match findComp term s.complications with
      | some c => SearchResult.found s.surgery_name c.name s
      | none => searchAux term rest

/-- `search_knowledge_base` from `streamlit_app.py`.  `if not query`
on a Python string is the empty-string test. -/
def search_knowledge_base (query : String) (kb : KnowledgeBase) : SearchResult :=
  if query = "" then SearchResult.noneTriple
  else searchAux (strLower query) kb.surgeries

/-- Matches the regex fragment `Step \d+: ` at the head of the character
list; on success returns the characters after the marker.  `\d+` is
greedy, and backtracking cannot help here because a shorter digit run is
followed by another digit, not by `:`. -/
def matchMarker : List Char → Option (List Char)
  | 'S' :: 't' :: 'e' :: 'p' :: ' ' :: rest =>
    if (rest.takeWhile Char.isDigit).isEmpty then none
    else
      match rest.dropWhile Char.isDigit with
      | ':' :: ' ' :: rest2 => some rest2
      | _ => none
  | _ => none

/-- Scans left to right for the first position where the `Step \d+: `
marker matches; returns the characters after that marker. -/
def findMarker : List Char → Option (List Char)
  | [] => none
  | c :: cs =>
    match matchMarker (c :: cs) with
    | some r => some r
    | none => findMarker cs

/-- The lazy capture `(.*?)(?=Step \d+: |$)` with `re.DOTALL`: take the
shortest span until the next marker matches or the string ends.  Returns
the span and the remaining characters from the lookahead position. -/
def captureSpan : List Char → List Char × List Char
  | [] => ([], [])
  | c :: cs =>
    if (matchMarker (c :: cs)).isSome then ([], c :: cs)
    else
      let p := captureSpan cs
      (c :: p.1, p.2)

/-- Fuelled driver of `re.findall(r'Step \d+: (.*?)(?=Step \d+: |$)', t,
re.DOTALL)`.  Each iteration consumes at least the eight characters of a
marker, so fuel equal to the input length never runs out. -/
def findallAux : Nat → List Char → List (List Char)
  | 0, _ => []
  | fuel + 1, cs =>
    match findMarker cs with
    | none => []
    | some rest =>
      let p := captureSpan rest
      p.1 :: findallAux fuel p.2

/-- All captured step contents of the protocol text, in order. -/
def findallSteps (cs : List Char) : List (List Char) :=
  findallAux cs.length cs

/-- Model of Python `str.strip()`: drop whitespace from both ends. -/
def stripChars (cs : List Char) : List Char :=
  ((cs.dropWhile Char.isWhitespace).reverse.dropWhile Char.isWhitespace).reverse

/-- `step_content_matches` of the protocol-formatting block of
`streamlit_app.py` (tab1). -/
def stepContentMatches (t : String) : List String :=
  (findallSteps t.data).map (fun l => ⟨l⟩)

/-- The protocol-formatting block of `streamlit_app.py`: renumber the
extracted spans from 1, bold each stripped span, one line per step; if
the regex found nothing, fall back to the raw protocol text. -/
def formatProtocol (t : String) : String :=
  let ms := stepContentMatches t
  if ms.isEmpty then t
  else
    String.join (ms.enum.map
      (fun p => toString (p.1 + 1) ++ ". **" ++ (⟨stripChars p.2.data⟩ : String) ++ "**\n"))

/-- The empty knowledge base `{"surgeries": []}`. -/
def emptyKB : KnowledgeBase :=
  ⟨[]⟩

/-- `load_json_knowledgebase` from `src/data_loader.py`.  The file system
is modelled as an association list from paths to file contents, `print`
output as the first component of the result, and `json.load` as an
explicit parameter `parse` whose `Except.error` models a raised parse
exception, which the function does not catch. -/
def load_json_knowledgebase (parse : String → Except String KnowledgeBase)
    (files : List (String × String)) (filepath : String) :
    List String × Except String KnowledgeBase :=
  match files.lookup filepath with
  | none => (["Error: Knowledge base file not found at " ++ filepath], Except.ok emptyKB)
  | some contents => ([], parse contents)

/-- `generate_response` from `src/ai_engine.py`.  `rag_chain.invoke` is
modelled as a function returning `Except`, where `Except.error e` models
a raised exception with message `e`. -/
def generate_response (invoke : String → Except String String) (query : String) : String :=
  match invoke query with
  | Except.ok response => response
  | Except.error e => "An error occurred during generation: " ++ e

/-- A concrete complication used by witnesses. -/
def exComp : Complication :=
  { name := "Bile Duct Injury"
    etiology := some "Misidentification of anatomy"
    risk_factors := none
    diagnostic_criteria := none
    protocol := some "Step 1: Stop bleeding. Step 2: Notify surgeon."
    references := ["http://example.org/guideline"] }

/-- A concrete one-surgery knowledge base used by witnesses. -/
def exKB : KnowledgeBase :=
  ⟨[{ surgery_name := "Cholecystectomy"
      category := some "General"
      complications := [exComp] }]⟩

/-- First surgery of the C1 counterexample: its complication name
contains "beta". -/
def surgAlpha : Surgery :=
  { surgery_name := "Alpha"
    category := none
    complications := [{ name := "Beta comp", etiology := none, risk_factors := none,
                        diagnostic_criteria := none, protocol := none, references := [] }] }

/-- Second surgery of the C1 counterexample: its name contains "beta". -/
def surgBeta : Surgery :=
  { surgery_name := "Beta"
    category := none
    complications := [{ name := "Other", etiology := none, risk_factors := none,
                        diagnostic_criteria := none, protocol := none, references := [] }] }

/-- Knowledge base refuting the claim that complication names are scanned
only when no surgery name anywhere matches. -/
def kbC1 : KnowledgeBase :=
  ⟨[surgAlpha, surgBeta]⟩

/-- A surgery whose name contains "colectomy" and whose complication list
is empty. -/
def surgColectomyTwo : Surgery :=
  { surgery_name := "Colectomy Two", category := none, complications := [] }

/-- The complication of the "Colectomy" example surgery. -/
def compLeak : Complication :=
  { name := "Anastomotic Leak", etiology := none, risk_factors := none,
    diagnostic_criteria := none, protocol := none, references := [] }

/-- A surgery named "Colectomy" with one complication. -/
def surgColectomy : Surgery :=
  { surgery_name := "Colectomy"
    category := none
    complications := [compLeak] }

/-- Knowledge base for the C10 counterexample: the empty-complication
surgery is shadowed by an earlier matching surgery. -/
def kbC10 : KnowledgeBase :=
  ⟨[surgColectomy, surgColectomyTwo]⟩

/-- Knowledge base for the C10 witness: a matching surgery with an empty
complication list is reached first. -/
def kbEmptyComps : KnowledgeBase :=
  ⟨[surgColectomyTwo]⟩

/-- Knowledge base with a duplicated complication name inside one
surgery, refuting unconditional uniqueness of `source` labels. -/
def kbDup : KnowledgeBase :=
  ⟨[{ surgery_name := "Colectomy"
      category := none
      complications :=
        [{ name := "Bleeding", etiology := none, risk_factors := none,
           diagnostic_criteria := none, protocol := none, references := [] },
         { name := "Bleeding", etiology := some "secondary entry", risk_factors := none,
           diagnostic_criteria := none, protocol := none, references := [] }] }]⟩

/-! ## Helper lemmas about the string model -/

theorem leadMatch_append (n b : List Char) : leadMatch n (n ++ b) = true := by
  induction n with
  | nil => rfl
  | cons a as ih => simp [leadMatch, ih]

theorem subMatch_front (n b : List Char) : subMatch n (n ++ b) = true := by
  cases n with
  | nil =>
    cases b with
    | nil => rfl
    | cons c t => simp [subMatch, leadMatch]
  | cons a as =>
    have h : leadMatch (a :: as) (a :: (as ++ b)) = true := leadMatch_append (a :: as) b
    simp [subMatch, h]

theorem subMatch_left (a n h : List Char) (hs : subMatch n h = true) :
    subMatch n (a ++ h) = true := by
  induction a with
  | nil => simpa using hs
  | cons c cs ih => simp [subMatch, ih]

theorem strIn_front (n b : String) : strIn n (n ++ b) = true :=
  subMatch_front n.data b.data

theorem strIn_left (a n h : String) (hs : strIn n h = true) : strIn n (a ++ h) = true :=
  subMatch_left a.data n.data h.data hs

theorem strIn_self (n : String) : strIn n n = true := by
  have := subMatch_front n.data []
  simpa [strIn] using this

theorem strLower_eq_empty_iff (s : String) : strLower s = "" ↔ s = "" := by
  constructor
  · intro h
    have hd : s.data.map Char.toLower = [] := congrArg String.data h
    exact String.ext (List.map_eq_nil_iff.mp hd)
  · intro h
    rw [h]
    rfl

/-! ## Helper lemmas about the scan of `search_knowledge_base` -/

theorem findComp_eq_none (term : String) (l : List Complication)
    (h : ∀ c ∈ l, compMatches term c = false) : findComp term l = none := by
  induction l with
  | nil => rfl
  | cons c rest ih =>
    have hc : compMatches term c = false := h c (List.mem_cons_self c rest)
    simp only [findComp, hc, if_false, Bool.false_eq_true]
    exact ih (fun c' hc' => h c' (List.mem_cons_of_mem c hc'))

theorem searchAux_skip (term : String) (pre l : List Surgery)
    (h : ∀ s ∈ pre, nameMatches term s = false ∧
      ∀ c ∈ s.complications, compMatches term c = false) :
    searchAux term (pre ++ l) = searchAux term l := by
  induction pre with
  | nil => rfl
  | cons s rest ih =>
    have hs := h s (List.mem_cons_self s rest)
    have hfc : findComp term s.complications = none := findComp_eq_none term _ hs.2
    simp only [List.cons_append, searchAux, hs.1, Bool.false_eq_true, if_false, hfc]
    exact ih (fun s' hs' => h s' (List.mem_cons_of_mem s hs'))

/-! ## Helper lemmas about `prepare_documents` -/

theorem prepareDocsAux_length (l : List Surgery) :
    (prepareDocsAux l).length = (l.map (fun s => s.complications.length)).sum := by
  induction l with
  | nil => rfl
  | cons s rest ih =>
    simp [prepareDocsAux, prepareForSurgery, ih]

theorem prepareDocsAux_pairs (l : List Surgery) :
    (prepareDocsAux l).map docPair =
      l.flatMap (fun s => s.complications.map (fun c => (s.surgery_name, c.name))) := by
  induction l with
  | nil => rfl
  | cons s rest ih =>
    simp only [prepareDocsAux, prepareForSurgery, List.map_append, List.map_map,
      List.flatMap_cons, ih]
    rfl

theorem prepareDocsAux_sources (l : List Surgery) :
    (prepareDocsAux l).map (fun d => d.metadata.source) =
      (l.flatMap (fun s => s.complications.map (fun c => (s.surgery_name, c.name)))).map
        sourceLabel := by
  induction l with
  | nil => rfl
  | cons s rest ih =>
    simp only [prepareDocsAux, prepareForSurgery, List.map_append, List.map_map,
      List.flatMap_cons, ih]
    rfl

/-! ## Claim theorems -/

/-- Claim C2: for every KnowledgeBase input, `prepare_documents` produces
exactly one document per complication — its output length equals the total
complication count across all surgeries — and the documents appear in
(Surgery, Complication) traversal order of the input. -/
theorem claim_C2 (kb : KnowledgeBase) :
    (prepare_documents kb).length = totalComplications kb ∧
    (prepare_documents kb).map docPair = traversalPairs kb :=
  ⟨prepareDocsAux_length kb.surgeries, prepareDocsAux_pairs kb.surgeries⟩

/-- Claim C5: the protocol formatter extracts the spans after each
`Step N: ` marker, trims them, and renumbers from 1: the spec's first
example yields the two items `1. **Stop bleeding.**` and
`2. **Notify surgeon.**` in order, and `Step 5: X Step 9: Y` is
renumbered 1 and 2, discarding the source numbers. -/
theorem claim_C5 :
    stepContentMatches "Step 1: Stop bleeding. Step 2: Notify surgeon." =
      ["Stop bleeding. ", "Notify surgeon."] ∧
    formatProtocol "Step 1: Stop bleeding. Step 2: Notify surgeon." =
      "1. **Stop bleeding.**\n2. **Notify surgeon.**\n" ∧
    formatProtocol "Step 5: X Step 9: Y" = "1. **X**\n2. **Y**\n" :=
  ⟨rfl, rfl, rfl⟩

/-- Claim C6: `search_knowledge_base` is case-insensitive — two queries
with the same lowercasing (so queries differing only in letter case)
yield identical results on every knowledge base. -/
theorem claim_C6 (q1 q2 : String) (kb : KnowledgeBase) (h : strLower q1 = strLower q2) :
    search_knowledge_base q1 kb = search_knowledge_base q2 kb := by
  by_cases h1 : q1 = ""
  · have h2 : q2 = "" := by
      rw [← strLower_eq_empty_iff, ← h, h1]
      rfl
    rw [h1, h2]
  · have h2 : q2 ≠ "" := by
      intro h2
      apply h1
      rw [← strLower_eq_empty_iff, h, h2]
      rfl
    unfold search_knowledge_base
    rw [if_neg h1, if_neg h2, h]

/-- Witness for C6 at the spec's own example pair of queries. -/
theorem claim_C6_witness :
    search_knowledge_base "LEAK" exKB = search_knowledge_base "leak" exKB :=
  claim_C6 "LEAK" "leak" exKB (by decide)

/-- Claim C7: `search_knowledge_base` returns the none-triple when the
query matches no surgery name and no complication name, and returns the
none-triple for the empty query (before any scanning — the result is the
same for every knowledge base). -/
theorem claim_C7 (kb : KnowledgeBase) (q : String) :
    ((∀ s ∈ kb.surgeries, nameMatches (strLower q) s = false ∧
        ∀ c ∈ s.complications, compMatches (strLower q) c = false) →
      search_knowledge_base q kb = SearchResult.noneTriple) ∧
    (q = "" → search_knowledge_base q kb = SearchResult.noneTriple) := by
  constructor
  · intro h
    by_cases hq : q = ""
    · simp [search_knowledge_base, hq]
    · unfold search_knowledge_base
      rw [if_neg hq]
      have hs := searchAux_skip (strLower q) kb.surgeries [] h
      rw [List.append_nil] at hs
      exact hs
  · intro h
    simp [search_knowledge_base, h]

/-- Witness for C7: a miss query and the empty query on a concrete
knowledge base. -/
theorem claim_C7_witness :
    search_knowledge_base "zzz" exKB = SearchResult.noneTriple ∧
    search_knowledge_base "" exKB = SearchResult.noneTriple :=
  ⟨(claim_C7 exKB "zzz").1 (by decide), (claim_C7 exKB "").2 rfl⟩

/-- Claim C8: `load_json_knowledgebase` on a path with no file prints a
diagnostic and returns the empty knowledge base instead of raising, while
a parse failure on an existing file propagates to the caller. -/
theorem claim_C8 (parse : String → Except String KnowledgeBase)
    (files : List (String × String)) (filepath : String) :
    (files.lookup filepath = none →
      load_json_knowledgebase parse files filepath =
        (["Error: Knowledge base file not found at " ++ filepath], Except.ok emptyKB)) ∧
    (∀ contents e, files.lookup filepath = some contents → parse contents = Except.error e →
      load_json_knowledgebase parse files filepath = ([], Except.error e)) := by
  constructor
  · intro h
    simp [load_json_knowledgebase, h]
  · intro contents e h hp
    simp [load_json_knowledgebase, h, hp]

/-- Witness for C8: a missing path degrades to the empty knowledge base
with a diagnostic, and a malformed existing file propagates its error. -/
theorem claim_C8_witness :
    load_json_knowledgebase (fun s => Except.error s) [("kb.json", "oops")] "missing.json" =
      (["Error: Knowledge base file not found at missing.json"], Except.ok emptyKB) ∧
    load_json_knowledgebase (fun s => Except.error s) [("kb.json", "oops")] "kb.json" =
      ([], Except.error "oops") :=
  ⟨(claim_C8 (fun s => Except.error s) [("kb.json", "oops")] "missing.json").1 rfl,
   (claim_C8 (fun s => Except.error s) [("kb.json", "oops")] "kb.json").2 "oops" "oops" rfl rfl⟩

/-- Claim C9: `generate_response` converts any exception from the chain
into a descriptive answer string instead of propagating it, and returns
the raw completion on success. -/
theorem claim_C9 (invoke : String → Except String String) (query : String) :
    (∀ e, invoke query = Except.error e →
      generate_response invoke query = "An error occurred during generation: " ++ e) ∧
    (∀ r, invoke query = Except.ok r → generate_response invoke query = r) := by
  constructor
  · intro e h
    simp [generate_response, h]
  · intro r h
    simp [generate_response, h]

/-- Witness for C9 on one failing and one succeeding chain. -/
theorem claim_C9_witness :
    generate_response (fun _ => Except.error "boom") "q" =
      "An error occurred during generation: boom" ∧
    generate_response (fun _ => Except.ok "fine") "q" = "fine" :=
  ⟨(claim_C9 (fun _ => Except.error "boom") "q").1 "boom" rfl,
   (claim_C9 (fun _ => Except.ok "fine") "q").2 "fine" rfl⟩

/-- Claim C1 (amended): the scan is interleaved per surgery.  If, at the
first surgery reached with any match at all, the match is on the surgery
name, the scan immediately returns that surgery paired with its first
listed complication and does not continue; complication names of a
surgery are scanned only when that surgery's own name does not contain
the query.  (A later surgery's name match does not suppress an earlier
surgery's complication match — see the counterexample.) -/
theorem claim_C1_amended (q : String) (kb : KnowledgeBase) (pre post : List Surgery)
    (s : Surgery) (c : Complication) (cs : List Complication)
    (hq : q ≠ "") (hkb : kb.surgeries = pre ++ s :: post)
    (hpre : ∀ s' ∈ pre, nameMatches (strLower q) s' = false ∧
      ∀ c' ∈ s'.complications, compMatches (strLower q) c' = false)
    (hname : nameMatches (strLower q) s = true)
    (hcomps : s.complications = c :: cs) :
    search_knowledge_base q kb = SearchResult.found s.surgery_name c.name s := by
  unfold search_knowledge_base
  rw [if_neg hq, hkb, searchAux_skip (strLower q) pre (s :: post) hpre]
  simp [searchAux, hname, hcomps]

/-- Counterexample to C1 as stated: in `kbC1` the query "beta" is a
substring of the surgery name "Beta", yet the scan returns the
complication-level match "Beta comp" found inside the earlier surgery
"Alpha" — complication names are scanned even though a surgery name
elsewhere in the knowledge base contains the query. -/
theorem claim_C1_counterexample :
    search_knowledge_base "beta" kbC1 = SearchResult.found "Alpha" "Beta comp" surgAlpha ∧
    surgBeta ∈ kbC1.surgeries ∧
    nameMatches (strLower "beta") surgBeta = true ∧
    search_knowledge_base "beta" kbC1 ≠ SearchResult.found "Beta" "Other" surgBeta := by
  decide

/-- Witness for the amended C1: "colectomy" matched against the first
surgery of `kbC10` returns its first complication, ignoring the rest. -/
theorem claim_C1_witness :
    search_knowledge_base "colectomy" kbC10 =
      SearchResult.found "Colectomy" "Anastomotic Leak" surgColectomy :=
  claim_C1_amended "colectomy" kbC10 [] [surgColectomyTwo] surgColectomy compLeak []
    (by decide) rfl (by simp) (by decide) rfl

/-- Claim C10 (amended): if the first surgery reached with any match at
all matches by name and has an empty complication list, the scan fails
with an out-of-range index error when taking the first complication,
rather than returning the none-triple or skipping that surgery.  (If an
earlier surgery already matched, the empty list is never reached — see
the counterexample.) -/
theorem claim_C10_amended (q : String) (kb : KnowledgeBase) (pre post : List Surgery)
    (s : Surgery)
    (hq : q ≠ "") (hkb : kb.surgeries = pre ++ s :: post)
    (hpre : ∀ s' ∈ pre, nameMatches (strLower q) s' = false ∧
      ∀ c' ∈ s'.complications, compMatches (strLower q) c' = false)
    (hname : nameMatches (strLower q) s = true)
    (hcomps : s.complications = []) :
    search_knowledge_base q kb = SearchResult.indexError := by
  unfold search_knowledge_base
  rw [if_neg hq, hkb, searchAux_skip (strLower q) pre (s :: post) hpre]
  simp [searchAux, hname, hcomps]

/-- Counterexample to C10 as stated: in `kbC10` the non-empty query
"colectomy" matches the name of `surgColectomyTwo`, whose complication
list is empty, yet no index error occurs because the earlier surgery
"Colectomy" already matched. -/
theorem claim_C10_counterexample :
    search_knowledge_base "colectomy" kbC10 ≠ SearchResult.indexError ∧
    surgColectomyTwo ∈ kbC10.surgeries ∧
    nameMatches (strLower "colectomy") surgColectomyTwo = true ∧
    surgColectomyTwo.complications = [] ∧
    ("colectomy" : String) ≠ "" := by
  decide

/-- Witness for the amended C10: a matching surgery with no complications
reached first produces the index error. -/
theorem claim_C10_witness :
    search_knowledge_base "colectomy" kbEmptyComps = SearchResult.indexError :=
  claim_C10_amended "colectomy" kbEmptyComps [] [] surgColectomyTwo
    (by decide) rfl (by simp) (by decide) rfl

/-- Claim C4: whenever one of the four clinical fields is missing from a
complication, the prepared document carries the literal "N/A" for that
field — in the metadata and, embedded at that field's labelled slot, in
the synthesized content — never an empty string or a null artifact. -/
theorem claim_C4 (surgery_name : String) (category : Option String) (c : Complication) :
    (c.etiology = none →
      (mkDoc surgery_name category c).metadata.etiology = "N/A" ∧
      strIn "Clinical Context (Etiology): N/A. "
        (mkDoc surgery_name category c).page_content = true) ∧
    (c.risk_factors = none →
      (mkDoc surgery_name category c).metadata.risk_factors = "N/A" ∧
      strIn "Key Risk Factors: N/A. " (mkDoc surgery_name category c).page_content = true) ∧
    (c.diagnostic_criteria = none →
      (mkDoc surgery_name category c).metadata.diagnostic_criteria = "N/A" ∧
      strIn "Diagnostic Criteria (Signs/Labs/Imaging): N/A. "
        (mkDoc surgery_name category c).page_content = true) ∧
    (c.protocol = none →
      (mkDoc surgery_name category c).metadata.protocol = "N/A" ∧
      strIn "Management Protocol: N/A" (mkDoc surgery_name category c).page_content = true) := by
  refine ⟨fun h => ⟨?_, ?_⟩, fun h => ⟨?_, ?_⟩, fun h => ⟨?_, ?_⟩, fun h => ⟨?_, ?_⟩⟩
  · simp [mkDoc, h]
  · simp only [mkDoc, h, Option.getD_none]
    exact strIn_left _ _ _ (strIn_front _ _)
  · simp [mkDoc, h]
  · simp only [mkDoc, h, Option.getD_none]
    exact strIn_left _ _ _ (strIn_left _ _ _ (strIn_front _ _))
  · simp [mkDoc, h]
  · simp only [mkDoc, h, Option.getD_none]
    exact strIn_left _ _ _ (strIn_left _ _ _ (strIn_left _ _ _ (strIn_front _ _)))
  · simp [mkDoc, h]
  · simp only [mkDoc, h, Option.getD_none]
    exact strIn_left _ _ _ (strIn_left _ _ _ (strIn_left _ _ _ (strIn_left _ _ _
      (strIn_self _))))

/-- Witness for C4 at a complication with all four fields missing. -/
theorem claim_C4_witness :
    (mkDoc "Colectomy" none compLeak).metadata.etiology = "N/A" ∧
    strIn "Clinical Context (Etiology): N/A. "
      (mkDoc "Colectomy" none compLeak).page_content = true ∧
    (mkDoc "Colectomy" none compLeak).metadata.risk_factors = "N/A" ∧
    strIn "Key Risk Factors: N/A. " (mkDoc "Colectomy" none compLeak).page_content = true ∧
    (mkDoc "Colectomy" none compLeak).metadata.diagnostic_criteria = "N/A" ∧
    strIn "Diagnostic Criteria (Signs/Labs/Imaging): N/A. "
      (mkDoc "Colectomy" none compLeak).page_content = true ∧
    (mkDoc "Colectomy" none compLeak).metadata.protocol = "N/A" ∧
    strIn "Management Protocol: N/A" (mkDoc "Colectomy" none compLeak).page_content = true := by
  obtain ⟨h1, h2, h3, h4⟩ := claim_C4 "Colectomy" none compLeak
  exact ⟨(h1 rfl).1, (h1 rfl).2, (h2 rfl).1, (h2 rfl).2, (h3 rfl).1, (h3 rfl).2,
    (h4 rfl).1, (h4 rfl).2⟩

/-! ## Injectivity of the `source` label for dash-free surgery names -/

theorem strData_append (a b : String) : (a ++ b).data = a.data ++ b.data :=
  rfl

theorem takeWhile_append_all (p : Char → Bool) (l r : List Char)
    (h : ∀ x ∈ l, p x = true) :
    (l ++ r).takeWhile p = l ++ r.takeWhile p := by
  induction l with
  | nil => rfl
  | cons a as ih =>
    have ha : p a = true := h a (List.mem_cons_self a as)
    simp [List.takeWhile_cons, ha, ih (fun x hx => h x (List.mem_cons_of_mem a hx))]

theorem sourceLabel_inj (s1 c1 s2 c2 : String)
    (h1 : noDash s1 = true) (h2 : noDash s2 = true)
    (he : sourceLabel (s1, c1) = sourceLabel (s2, c2)) : s1 = s2 ∧ c1 = c2 := by
  have hsep : (" - " : String).data = [' ', '-', ' '] := rfl
  have hd : s1.data ++ (' ' :: '-' :: ' ' :: c1.data) =
      s2.data ++ (' ' :: '-' :: ' ' :: c2.data) := by
    have hdd := congrArg String.data he
    simpa [sourceLabel, strData_append, hsep, List.append_assoc] using hdd
  have hall : ∀ (s : String), noDash s = true →
      ∀ x ∈ s.data ++ [' '], (x != '-') = true := by
    intro s hs x hx
    rcases List.mem_append.1 hx with hxs | hxe
    · exact List.all_eq_true.1 hs x hxs
    · have : x = ' ' := by simpa using hxe
      rw [this]
      decide
  have htake : ∀ (s c : String), noDash s = true →
      (s.data ++ (' ' :: '-' :: ' ' :: c.data)).takeWhile (fun ch => ch != '-') =
        s.data ++ [' '] := by
    intro s c hs
    have hsplit : s.data ++ (' ' :: '-' :: ' ' :: c.data) =
        (s.data ++ [' ']) ++ ('-' :: ' ' :: c.data) := by
      simp
    rw [hsplit, takeWhile_append_all (fun ch => ch != '-') _ _ (hall s hs)]
    simp [List.takeWhile_cons]
  have hw := congrArg (List.takeWhile (fun ch => ch != '-')) hd
  rw [htake s1 c1 h1, htake s2 c2 h2] at hw
  have hs12 : s1.data = s2.data := List.append_cancel_right hw
  have hc12 : c1.data = c2.data := by
    rw [hs12] at hd
    have := List.append_cancel_left hd
    simpa using this
  exact ⟨String.ext hs12, String.ext hc12⟩

theorem mem_traversalPairs_fst (kb : KnowledgeBase) (p : String × String)
    (hp : p ∈ traversalPairs kb) : ∃ s ∈ kb.surgeries, p.1 = s.surgery_name := by
  simp only [traversalPairs] at hp
  obtain ⟨s, hs, hmem⟩ := List.mem_flatMap.1 hp
  obtain ⟨c, _, he⟩ := List.mem_map.1 hmem
  exact ⟨s, hs, by rw [← he]⟩

theorem traversalPairs_nodup (kb : KnowledgeBase)
    (hnames : (kb.surgeries.map (fun s => s.surgery_name)).Nodup)
    (hcomps : ∀ s ∈ kb.surgeries, (s.complications.map (fun c => c.name)).Nodup) :
    (traversalPairs kb).Nodup := by
  simp only [traversalPairs]
  apply List.nodup_flatMap.mpr
  constructor
  · intro s hs
    have hn : List.Pairwise (fun a b : Complication => a.name ≠ b.name) s.complications :=
      (List.pairwise_map).1 (hcomps s hs)
    apply (List.pairwise_map).2
    exact hn.imp (fun hab hEq => hab (congrArg Prod.snd hEq))
  · have h2 : List.Pairwise (fun a b : Surgery => a.surgery_name ≠ b.surgery_name)
        kb.surgeries := (List.pairwise_map).1 hnames
    refine h2.imp ?_
    intro a b hab
    intro p hpa hpb
    obtain ⟨ca, _, hea⟩ := List.mem_map.1 hpa
    obtain ⟨cb, _, heb⟩ := List.mem_map.1 hpb
    exact hab (congrArg Prod.fst (hea.trans heb.symm))

/-- Claim C3 (amended): under the spec's own data-model invariants —
surgery names unique across the knowledge base, complication names
unique within each surgery — and provided no surgery name contains the
separator character `-`, every prepared document's `source` metadata is
unique within the output sequence. -/
theorem claim_C3_amended (kb : KnowledgeBase)
    (hnames : (kb.surgeries.map (fun s => s.surgery_name)).Nodup)
    (hcomps : ∀ s ∈ kb.surgeries, (s.complications.map (fun c => c.name)).Nodup)
    (hdash : ∀ s ∈ kb.surgeries, noDash s.surgery_name = true) :
    (sourcesOf kb).Nodup := by
  have hsrc : sourcesOf kb = (traversalPairs kb).map sourceLabel :=
    prepareDocsAux_sources kb.surgeries
  rw [hsrc]
  apply List.Nodup.map_on ?_ (traversalPairs_nodup kb hnames hcomps)
  intro x hx y hy hxy
  obtain ⟨sx, hsx, hex⟩ := mem_traversalPairs_fst kb x hx
  obtain ⟨sy, hsy, hey⟩ := mem_traversalPairs_fst kb y hy
  have hdx : noDash x.1 = true := by rw [hex]; exact hdash sx hsx
  have hdy : noDash y.1 = true := by rw [hey]; exact hdash sy hsy
  have := sourceLabel_inj x.1 x.2 y.1 y.2 hdx hdy hxy
  exact Prod.ext this.1 this.2

/-- Counterexample to C3 as stated: a knowledge base in which one surgery
lists the complication name "Bleeding" twice yields two documents with
the identical source label, so uniqueness does not hold for every
KnowledgeBase input. -/
theorem claim_C3_counterexample :
    sourcesOf kbDup = ["Colectomy - Bleeding", "Colectomy - Bleeding"] ∧
    ¬ (sourcesOf kbDup).Nodup := by
  decide

/-- Witness for the amended C3 on a concrete knowledge base. -/
theorem claim_C3_witness : (sourcesOf exKB).Nodup :=
  claim_C3_amended exKB (by decide) (by decide) (by decide)
